import Mathlib

/-!
Verification of the scalar ARMA(p, q) model of `quantecon/arma.py`.

The embedding below follows the source module:

* `Param` models a constructor argument that is either a scalar or a sequence
  (`phi`, `theta` may be either in Python).
* `setParams` embeds `ARMA.set_params`: `ma_poly = np.insert(asarray(theta), 0, 1)`
  and `ar_poly = np.insert(-asarray(phi), 0, 1)`, right-padded with zeros when
  shorter than `ma_poly`.  NumPy's `insert` flattens a 0-d array, so a scalar
  argument contributes exactly one coefficient.
* `lfilter` embeds the input/output behaviour of the discrete-time transfer
  function `(ma_poly, ar_poly, 1)` that `scipy.signal.dimpulse` and
  `scipy.signal.dlsim` simulate (via `tf2ss`), namely the difference equation
  `y[j] = (sum_k b[k] x[j-k] - sum_{i>=1} a[i] y[j-i]) / a[0]`
  with zero initial state.
* `spectral_density`, `ifft` and `autocovariance` embed `scipy.signal.freqz`
  (evaluation of the two coefficient polynomials at `exp(-i w)` on the grid
  `w_k = 2 pi k / res`, or `pi k / res` when `two_pi` is false) composed with
  `h * conj(h) * sigma ** 2`, and `np.fft.ifft`.
* `simulation` embeds `ARMA.simulation`: the Gaussian draws made by
  `np.random.randn(ts_length, 1)` appear as an explicit `noise` list, which is
  scaled by `sigma` and filtered through the transfer function by `dlsim`.
* `impulse_response` and `simulation` return `Option`: with zero samples the
  scipy routines they call fail (`dimpulse` executes `u[0, i] = 1.0` on an
  empty array and `dlsim` indexes `xout[0, :]` on a zero-row input, both
  raising `IndexError`), so the zero-sample call is `none`; with one or more
  samples they return the filter outputs.
-/

namespace Arma

/-- A raw model parameter as accepted by the Python constructor: either a
scalar or a sequence of coefficients. -/
inductive Param (α : Type) where
  | scalar (x : α)
  | seq (l : List α)

/-- Promotion of a parameter to a coefficient sequence, matching
`np.asarray` followed by the flattening done inside `np.insert` (a 0-d array
becomes a length-1 sequence). -/
def Param.asSeq {α : Type} : Param α → List α
  | .scalar x => [x]
  | .seq l => l

/-- Embedding of `ARMA.set_params` (arma.py lines 113-127): returns the pair
`(ar_poly, ma_poly)` computed from the current `phi` and `theta`.
`ma_poly = np.insert(theta, 0, 1)`, `ar_poly = np.insert(-phi, 0, 1)`, and
`ar_poly` is right-padded with zeros (`np.hstack` with `np.zeros`) when it is
shorter than `ma_poly`. -/
def setParams {α : Type} [Field α] (phi theta : Param α) : List α × List α :=
  let ma : List α := 1 :: theta.asSeq
  let ar0 : List α := 1 :: phi.asSeq.map (fun x => -x)
  let ar : List α :=
    if ar0.length < ma.length then ar0 ++ List.replicate (ma.length - ar0.length) 0
    else ar0
  (ar, ma)

/-- State of an `ARMA` object: the raw parameters `_phi`, `_theta`, `sigma`
together with the derived polynomials stored by `set_params`. -/
structure ARMA (α : Type) where
  phi : Param α
  theta : Param α
  sigma : α
  ar_poly : List α
  ma_poly : List α

/-- Embedding of `ARMA.__init__` (arma.py lines 70-73): stores the raw
parameters and calls `set_params`. -/
def mkARMA {α : Type} [Field α] (phi theta : Param α) (sigma : α) : ARMA α :=
  ⟨phi, theta, sigma, (setParams phi theta).1, (setParams phi theta).2⟩

/-- Embedding of the `phi` setter (arma.py lines 79-82): replaces `_phi` and
recomputes both polynomials via `set_params`. -/
def ARMA.setPhi {α : Type} [Field α] (m : ARMA α) (v : Param α) : ARMA α :=
  mkARMA v m.theta m.sigma

/-- Embedding of the `theta` setter (arma.py lines 88-91): replaces `_theta`
and recomputes both polynomials via `set_params`. -/
def ARMA.setTheta {α : Type} [Field α] (m : ARMA α) (v : Param α) : ARMA α :=
  mkARMA m.phi v m.sigma

/-- Feed-forward part of the difference equation at step `j`: the convolution
`sum_k b[k] * x[j-k]` of the numerator coefficients with the input, where the
input is zero before time 0. -/
def dotImp {α : Type} [Field α] (b x : List α) (j : ℕ) : α :=
  ∑ k ∈ Finset.range b.length, if k ≤ j then b.getD k 0 * x.getD (j - k) 0 else 0

/-- Feedback part of the difference equation at step `j`: the sum
`sum_{i>=1} a[i] * y[j-i]` over the denominator coefficients and the already
computed outputs `ys` (zero initial state). -/
def dotFb {α : Type} [Field α] (a ys : List α) (j : ℕ) : α :=
  ∑ i ∈ Finset.range (a.length - 1),
    if i + 1 ≤ j then a.getD (i + 1) 0 * ys.getD (j - (i + 1)) 0 else 0

/-- First `n` outputs of the linear filter with numerator `b`, denominator `a`
and input `x`, built iteratively from the difference equation. -/
def lfilterAux {α : Type} [Field α] (b a x : List α) : ℕ → List α
  | 0 => []
  | j + 1 =>
    let ys := lfilterAux b a x j
    ys ++ [(dotImp b x j - dotFb a ys j) / a.headD 1]

/-- Input/output behaviour of the discrete-time system `(b, a, 1)` on the
input `x`, one output per input sample.  This is the behaviour
`scipy.signal.dlsim` realises through the `tf2ss` state-space form. -/
def lfilter {α : Type} [Field α] (b a x : List α) : List α := lfilterAux b a x x.length

/-- Unit impulse of length `n`: the input sequence `dimpulse` drives the
system with. -/
def impulseInput {α : Type} [Field α] : ℕ → List α
  | 0 => []
  | n + 1 => 1 :: List.replicate n 0

/-- Embedding of `ARMA.impulse_response` (arma.py lines 129-144): the response
of the system `(ma_poly, ar_poly, 1)` to a unit impulse, for `n` samples
(`scipy.signal.dimpulse` with `n=impulse_length`).  For `n = 0` the call
fails: `dimpulse` builds a zero-row input and executes `u[0, i] = 1.0`,
raising `IndexError`, hence `none`. -/
def ARMA.impulse_response {α : Type} [Field α] (m : ARMA α) (n : ℕ) : Option (List α) :=
  match n with
  | 0 => none
  | k + 1 => some (lfilter m.ma_poly m.ar_poly (impulseInput (k + 1)))

/-- Embedding of `ARMA.simulation` (arma.py lines 203-222): the draws produced
by `np.random.randn(ts_length, 1)` are the explicit list `noise` (so
`ts_length = noise.length`); they are scaled by `sigma` and filtered through
`(ma_poly, ar_poly, 1)` by `dlsim`.  For `ts_length = 0` the call fails:
`dlsim` indexes `xout[0, :]` on a zero-row input, raising `IndexError`,
hence `none`. -/
def ARMA.simulation {α : Type} [Field α] (m : ARMA α) (noise : List α) : Option (List α) :=
  match noise with
  | [] => none
  | e :: rest => some (lfilter m.ma_poly m.ar_poly ((e :: rest).map (fun u => u * m.sigma)))

/-- Embedding of the frequency grid of `scipy.signal.freqz` for a scalar
`worN = res`: `res` points evenly spaced over `[0, 2 pi)` when `whole` is
true and over `[0, pi)` otherwise (`np.linspace` with `endpoint=False`). -/
noncomputable def freqzFreqs (two_pi : Bool) (res : ℕ) : List ℝ :=
  (List.range res).map
    (fun k : ℕ => (if two_pi then 2 * Real.pi else Real.pi) * (k : ℝ) / (res : ℝ))

/-- Evaluation of a real coefficient polynomial in `z⁻¹ = exp(-i w)`, as
`freqz` evaluates numerator and denominator:
`c[0] + c[1] exp(-i w) + c[2] exp(-2 i w) + ...`. -/
noncomputable def polyEvalInv (c : List ℝ) (w : ℝ) : ℂ :=
  ∑ j ∈ Finset.range c.length, (c.getD j 0 : ℂ) * Complex.exp (-(Complex.I * w * j))

/-- Complex frequency response `H(w)` of the filter `(ma_poly, ar_poly)`: the
numerator polynomial over the denominator polynomial at `exp(-i w)`. -/
noncomputable def ARMA.freqResp (m : ARMA ℝ) (w : ℝ) : ℂ :=
  polyEvalInv m.ma_poly w / polyEvalInv m.ar_poly w

/-- Embedding of `ARMA.spectral_density` (arma.py lines 146-183): frequencies
from `freqz` together with `spect = h * conj(h) * sigma ** 2`. -/
noncomputable def ARMA.spectral_density (m : ARMA ℝ) (two_pi : Bool) (res : ℕ) :
    List ℝ × List ℂ :=
  let ws := freqzFreqs two_pi res
  (ws, ws.map (fun w => m.freqResp w * (starRingEnd ℂ) (m.freqResp w) * (m.sigma : ℂ) ^ 2))

/-- Embedding of `np.fft.ifft`:
`out[n] = (1/N) * sum_k v[k] * exp(2 pi i k n / N)` with `N = v.length`. -/
noncomputable def ifft (v : List ℂ) : List ℂ :=
  (List.range v.length).map (fun n : ℕ =>
    (v.length : ℂ)⁻¹ * ∑ k ∈ Finset.range v.length,
      v.getD k 0 * Complex.exp (2 * Real.pi * Complex.I * (k : ℂ) * (n : ℂ) / (v.length : ℂ)))

/-- Embedding of `ARMA.autocovariance` (arma.py lines 185-201): the real part
of the inverse FFT of the default spectral density (`two_pi=True`,
`res=1200`), truncated by the slice `[:num_autocov]`. -/
noncomputable def ARMA.autocovariance (m : ARMA ℝ) (num : ℕ) : List ℝ :=
  ((ifft (m.spectral_density true 1200).2).map Complex.re).take num

/-- White-noise model `ARMA(phi=0, theta=0, sigma=1)` over the reals. -/
noncomputable def m0R : ARMA ℝ := mkARMA (Param.scalar 0) (Param.scalar 0) 1

/-- White-noise model `ARMA(phi=0, theta=0, sigma=1)` over the rationals. -/
def wnQ : ARMA ℚ := mkARMA (Param.scalar 0) (Param.scalar 0) 1

/-- Pure AR model `ARMA(phi=0.9, theta=0, sigma=1)` over the rationals. -/
def arQ : ARMA ℚ := mkARMA (Param.scalar (9 / 10)) (Param.scalar 0) 1

/-- Specification predicate for claim C1, written from the spec text: `ma_poly`
is `[1]` followed by `theta` as a sequence; `ar_poly` is `[1]` followed by the
element-wise negation of `phi`, right-padded with zeros until its length
equals `len(ma_poly)` whenever it is shorter. -/
def PolysSpec {α : Type} [Field α] (m : ARMA α) : Prop :=
  m.ma_poly = [1] ++ m.theta.asSeq ∧
  m.ar_poly =
    (if ([1] ++ m.phi.asSeq.map (fun x => -x)).length < m.ma_poly.length then
      ([1] ++ m.phi.asSeq.map (fun x => -x)) ++
        List.replicate (m.ma_poly.length - ([1] ++ m.phi.asSeq.map (fun x => -x)).length) 0
    else [1] ++ m.phi.asSeq.map (fun x => -x))

/-- Invariant of claim C5: both polynomials lead with coefficient 1 and
`ar_poly` is at least as long as `ma_poly`. -/
def LeadingInvariant {α : Type} [Field α] (m : ARMA α) : Prop :=
  m.ar_poly.headD 0 = 1 ∧ m.ma_poly.headD 0 = 1 ∧ m.ma_poly.length ≤ m.ar_poly.length

end Arma

namespace Arma

theorem polysSpec_mk {α : Type} [Field α] (p t : Param α) (s : α) :
    PolysSpec (mkARMA p t s) := by
  constructor <;> simp [PolysSpec, mkARMA, setParams]

/-- C1: every construction and every mutation of `phi` or `theta` produces
`ma_poly = [1] ++ theta` (scalar promoted to a length-1 sequence) and
`ar_poly = [1] ++ (-phi)`, right-padded with zeros to the length of `ma_poly`
whenever it is shorter. -/
theorem C1_set_params_normalization {α : Type} [Field α]
    (p t : Param α) (s : α) (v w : Param α) :
    PolysSpec (mkARMA p t s) ∧
    PolysSpec ((mkARMA p t s).setPhi v) ∧
    PolysSpec ((mkARMA p t s).setTheta w) :=
  ⟨polysSpec_mk p t s, polysSpec_mk v t s, polysSpec_mk p w s⟩

theorem leadingInvariant_mk {α : Type} [Field α] (p t : Param α) (s : α) :
    LeadingInvariant (mkARMA p t s) := by
  refine ⟨?_, rfl, ?_⟩
  · simp only [mkARMA, setParams]
    split <;> simp
  · simp only [mkARMA, setParams]
    split
    all_goals rename_i h
    all_goals simp_all
    all_goals omega

/-- C5: after construction and after every mutation of `phi` or `theta`,
`ar_poly[0] = 1`, `ma_poly[0] = 1` and `len(ar_poly) >= len(ma_poly)`. -/
theorem C5_polynomial_invariant {α : Type} [Field α]
    (p t : Param α) (s : α) (v w : Param α) :
    LeadingInvariant (mkARMA p t s) ∧
    LeadingInvariant ((mkARMA p t s).setPhi v) ∧
    LeadingInvariant ((mkARMA p t s).setTheta w) :=
  ⟨leadingInvariant_mk p t s, leadingInvariant_mk v t s, leadingInvariant_mk p w s⟩

/-- C8 evidence: the claim says `simulate(length=0)` and
`impulse_response(length=0)` both return empty sequences and neither call
fails, but both calls hand zero samples to scipy and fail there with
`IndexError` (`u[0, i] = 1.0` on an empty array in `dimpulse`,
`xout[0, :]` on a zero-row input in `dlsim`): no sequence is returned. -/
theorem C8_zero_length_raises {α : Type} [Field α] (m : ARMA α) :
    m.simulation [] = none ∧ m.impulse_response 0 = none :=
  ⟨rfl, rfl⟩

/-- C9: setting `phi` to any new value and then back to its original value
restores `ar_poly` exactly, because `set_params` recomputes the polynomials
purely from the current parameters. -/
theorem C9_reset_phi_restores_ar_poly {α : Type} [Field α]
    (p t : Param α) (s : α) (v : Param α) :
    (((mkARMA p t s).setPhi v).setPhi (mkARMA p t s).phi).ar_poly =
      (mkARMA p t s).ar_poly := rfl

theorem getD_replicate_zero {α : Type} [Field α] (m i : ℕ) :
    (List.replicate m (0 : α)).getD i 0 = 0 := by
  induction m generalizing i with
  | zero => cases i <;> rfl
  | succ m ih => cases i <;> simp [List.getD_cons_zero, List.getD_cons_succ, ih]

theorem lfilterAux_passthrough {α : Type} [Field α] (x : List α) (j : ℕ) :
    lfilterAux [1, 0] [1, 0] x j = (List.range j).map (fun i => x.getD i 0) := by
  induction j with
  | zero => rfl
  | succ j ih =>
    rw [lfilterAux, ih, List.range_succ, List.map_append]
    congr 1
    simp [dotImp, dotFb, Finset.sum_range_succ]

theorem impulseInput_getD {α : Type} [Field α] (n i : ℕ) (h : i < n) :
    (impulseInput n : List α).getD i 0 = if i = 0 then 1 else 0 := by
  cases n with
  | zero => omega
  | succ m =>
    cases i with
    | zero => rfl
    | succ i => simp [impulseInput, List.getD_cons_succ, getD_replicate_zero]

/-- C6: for the white-noise model `phi=0, theta=0, sigma=1` the impulse
response is `[1, 0, 0, ...]` for every positive requested length (length 0
fails inside `dimpulse`), and for the pure AR model
`phi=0.9, theta=0, sigma=1` the first five responses are
`1, 0.9, 0.81, 0.729, 0.6561`, i.e. `psi[j] = phi^j`. -/
theorem C6_impulse_response_examples :
    (∀ n, 1 ≤ n → wnQ.impulse_response n =
      some ((List.range n).map (fun j => if j = 0 then (1 : ℚ) else 0))) ∧
    arQ.impulse_response 5 =
      some [1, 9 / 10, 81 / 100, 729 / 1000, 6561 / 10000] := by
  constructor
  · intro n hn
    obtain ⟨k, rfl⟩ : ∃ k, n = k + 1 := ⟨n - 1, by omega⟩
    have hma : wnQ.ma_poly = [1, 0] := by
      simp [wnQ, mkARMA, setParams, Param.asSeq]
    have har : wnQ.ar_poly = [1, 0] := by
      simp [wnQ, mkARMA, setParams, Param.asSeq]
    have hlen : (impulseInput (k + 1) : List ℚ).length = k + 1 := by
      simp [impulseInput]
    simp only [ARMA.impulse_response, Option.some.injEq]
    rw [lfilter, hma, har, lfilterAux_passthrough, hlen]
    exact List.map_congr_left fun i hi => impulseInput_getD (k + 1) i (List.mem_range.mp hi)
  · have hma : arQ.ma_poly = [1, 0] := by
      simp [arQ, mkARMA, setParams, Param.asSeq]
    have har : arQ.ar_poly = [1, -(9 / 10)] := by
      simp [arQ, mkARMA, setParams, Param.asSeq]
    have hx : (impulseInput 5 : List ℚ) = [1, 0, 0, 0, 0] := rfl
    simp only [ARMA.impulse_response, Option.some.injEq]
    rw [lfilter, hx, hma, har]
    norm_num [lfilterAux, dotImp, dotFb, Finset.sum_range_succ]

theorem C6_impulse_response_examples_witness :
    1 ≤ 3 ∧ wnQ.impulse_response 3 =
      some ((List.range 3).map (fun j => if j = 0 then (1 : ℚ) else 0)) :=
  ⟨by norm_num, C6_impulse_response_examples.1 3 (by norm_num)⟩

/-- C4 evidence: two runs of `simulation` with identical caller-supplied
arguments (same model, same `ts_length = 1`) produce different outputs when
the hidden global draw of `np.random.randn` differs, showing the output is a
function of state the caller does not supply through the call. -/
theorem C4_simulation_reads_global_draws :
    wnQ.simulation [0] = some [0] ∧ wnQ.simulation [1] = some [1] ∧
    wnQ.simulation [0] ≠ wnQ.simulation [1] := by
  have hma : wnQ.ma_poly = [1, 0] := by
    simp [wnQ, mkARMA, setParams, Param.asSeq]
  have har : wnQ.ar_poly = [1, 0] := by
    simp [wnQ, mkARMA, setParams, Param.asSeq]
  have hs : wnQ.sigma = 1 := rfl
  refine ⟨?_, ?_, ?_⟩ <;>
    norm_num [ARMA.simulation, lfilter, hma, har, hs, lfilterAux, dotImp, dotFb,
      Finset.sum_range_succ]

/-- C10: a scalar `theta` — including the default `theta = 0` — yields
`ma_poly = [1, theta]` of length 2, never the length-1 polynomial `[1]`,
because `np.insert` flattens the 0-d array `np.asarray(theta)` into a
length-1 sequence. -/
theorem C10_scalar_theta_ma_poly {α : Type} [Field α] (p : Param α) (t s : α) :
    (mkARMA p (Param.scalar t) s).ma_poly = [1, t] ∧
    (mkARMA p (Param.scalar t) s).ma_poly.length = 2 ∧
    (mkARMA p (Param.scalar 0) s).ma_poly = [1, 0] ∧
    (mkARMA p (Param.scalar t) s).ma_poly ≠ [1] := by
  refine ⟨rfl, rfl, rfl, ?_⟩
  intro h
  simp [mkARMA, setParams, Param.asSeq] at h

theorem length_freqzFreqs (tp : Bool) (res : ℕ) : (freqzFreqs tp res).length = res := by
  simp only [freqzFreqs, List.length_map, List.length_range]

theorem length_spectral_density (m : ARMA ℝ) (tp : Bool) (res : ℕ) :
    (m.spectral_density tp res).2.length = res := by
  simp only [ARMA.spectral_density, freqzFreqs, List.length_map, List.length_range]

theorem length_ifft (v : List ℂ) : (ifft v).length = v.length := by
  simp only [ifft, List.length_map, List.length_range]

/-- C2: every entry of the power array of `spectral_density` equals
`|H(w_k)|^2 * sigma^2` as a real number (its imaginary part is zero, exactly
as `h * conj(h)` has in exact arithmetic), and every entry is non-negative. -/
theorem C2_spectral_density_real_nonneg (m : ARMA ℝ) (tp : Bool) (res : ℕ) :
    (m.spectral_density tp res).2 =
      (freqzFreqs tp res).map
        (fun w => ((Complex.normSq (m.freqResp w) * m.sigma ^ 2 : ℝ) : ℂ)) ∧
    List.Forall (fun z => z.im = 0 ∧ 0 ≤ z.re) (m.spectral_density tp res).2 := by
  have hmap : (m.spectral_density tp res).2 =
      (freqzFreqs tp res).map
        (fun w => ((Complex.normSq (m.freqResp w) * m.sigma ^ 2 : ℝ) : ℂ)) := by
    simp only [ARMA.spectral_density]
    refine List.map_congr_left fun w _ => ?_
    rw [Complex.mul_conj]
    push_cast
    ring
  refine ⟨hmap, ?_⟩
  rw [hmap, List.forall_iff_forall_mem]
  intro z hz
  obtain ⟨w, -, rfl⟩ := List.mem_map.mp hz
  refine ⟨Complex.ofReal_im _, ?_⟩
  rw [Complex.ofReal_re]
  exact mul_nonneg (Complex.normSq_nonneg _) (sq_nonneg _)

theorem getD_take {α : Type} (l : List α) (n j : ℕ) (d : α) (h : j < n) :
    (l.take n).getD j d = l.getD j d := by
  induction l generalizing n j with
  | nil => simp
  | cons a l ih =>
    cases n with
    | zero => omega
    | succ n =>
      cases j with
      | zero => simp
      | succ j => simpa using ih n j (by omega)

/-- C3 counterexample: the claim promises exactly `num_lags` values for every
positive `num_lags`, but the slice `acov[:num_autocov]` cannot produce more
than the 1200 values of the default-resolution spectral density: requesting
1201 lags returns only 1200 values. -/
theorem C3_counterexample_1201_lags :
    (m0R.autocovariance 1201).length = 1200 ∧
    (m0R.autocovariance 1201).length ≠ 1201 := by
  have h : (m0R.autocovariance 1201).length = 1200 := by
    simp [ARMA.autocovariance, length_ifft, length_spectral_density]
  exact ⟨h, by omega⟩

/-- C3 (amended): for every model and every positive `num_lags` that does not
exceed the default resolution of 1200 points, `autocovariance` returns
exactly `num_lags` real values, the first `num_lags` entries of the real part
of the inverse discrete Fourier transform of the `two_pi=True` spectral
density at resolution 1200. -/
theorem C3_autocovariance_from_ifft (m : ARMA ℝ) (num : ℕ)
    (h1 : 0 < num) (h2 : num ≤ 1200) :
    (m.autocovariance num).length = num ∧
    ∀ j, j < num →
      (m.autocovariance num).getD j 0 =
        ((ifft (m.spectral_density true 1200).2).getD j 0).re := by
  constructor
  · simp only [ARMA.autocovariance, List.length_take, List.length_map,
      length_ifft, length_spectral_density]
    omega
  · intro j hj
    rw [ARMA.autocovariance, getD_take _ _ _ _ hj]
    have h0 : (0 : ℝ) = Complex.re 0 := by simp
    rw [h0, List.getD_map]

theorem C3_autocovariance_from_ifft_witness :
    0 < 1 ∧ 1 ≤ 1200 ∧
    (m0R.autocovariance 1).length = 1 ∧
    (m0R.autocovariance 1).getD 0 0 =
      ((ifft (m0R.spectral_density true 1200).2).getD 0 0).re :=
  ⟨Nat.one_pos, by norm_num,
    (C3_autocovariance_from_ifft m0R 1 Nat.one_pos (by norm_num)).1,
    (C3_autocovariance_from_ifft m0R 1 Nat.one_pos (by norm_num)).2 0 Nat.one_pos⟩

/-- C7 counterexample: the claim says a non-positive `num_lags` or
`resolution` raises an `InvalidArgument` error with no result returned, but
the code performs no validation at all: `autocovariance(0)` and
`spectral_density(res=0)` return normally with empty sequences. -/
theorem C7_counterexample_zero_args :
    m0R.autocovariance 0 = [] ∧ (m0R.spectral_density true 0).2 = [] := by
  constructor
  · simp [ARMA.autocovariance]
  · simp [ARMA.spectral_density, freqzFreqs]

/-- C7 (amended): the code performs no argument validation and defines no
`InvalidArgument` error: with `num_lags` or `resolution` equal to 0,
`autocovariance` and `spectral_density` raise nothing and return empty
sequences, while `impulse_response` and `simulation` with zero samples fail
with an uncaught `IndexError` inside scipy rather than an `InvalidArgument`
detected at call time. -/
theorem C7_no_validation_zero_args (m : ARMA ℝ) (tp : Bool) :
    m.autocovariance 0 = [] ∧
    (m.spectral_density tp 0).1 = [] ∧
    (m.spectral_density tp 0).2 = [] ∧
    m.impulse_response 0 = none ∧
    m.simulation [] = none := by
  refine ⟨?_, ?_, ?_, rfl, rfl⟩
  · simp [ARMA.autocovariance]
  · simp [ARMA.spectral_density, freqzFreqs]
  · simp [ARMA.spectral_density, freqzFreqs]

end Arma
